import Mathlib

/-!
Verification of the image feature-extraction and validation heuristics of the
PlantMama repository, src/services/image_processing.py (class ImageProcessor).

The Python code is shallowly embedded:
- uint8 numpy arrays become lists of natural numbers below 256; element-wise
  numpy expressions become List.map over pixel rows;
- float arithmetic on the small integer inputs of this file is modelled by
  exact rational arithmetic; comments at each definition justify the places
  where the float computation provably agrees with the rational one;
- raised exceptions become an Except value, mirroring the except branches of
  the source.
-/

/-! ### Rounding

Python round(x, d) rounds half to even on the value of the float x.  All
inputs we round are rationals; roundHalfEven models round-half-to-even on a
rational exactly. -/

/-- Round a rational to an integer, halves to even, as Python round does. -/
def roundHalfEven (x : ℚ) : ℤ :=
  if x - ⌊x⌋ < 1/2 then ⌊x⌋
  else if 1/2 < x - ⌊x⌋ then ⌊x⌋ + 1
  else if Even ⌊x⌋ then ⌊x⌋ else ⌊x⌋ + 1

/-- Python round(x, d) for a rational x: scale, round half to even, unscale. -/
def pyRound (d : ℕ) (x : ℚ) : ℚ := (roundHalfEven (x * 10 ^ d) : ℚ) / 10 ^ d

/-- round(x, 1) of the source. -/
def round1 (x : ℚ) : ℚ := pyRound 1 x

/-- round(x, 2) of the source. -/
def round2 (x : ℚ) : ℚ := pyRound 2 x

/-- round(x, 3) of the source. -/
def round3 (x : ℚ) : ℚ := pyRound 3 x

theorem roundHalfEven_le (x : ℚ) : (roundHalfEven x : ℚ) ≤ x + 1/2 := by
  unfold roundHalfEven
  have h1 : (⌊x⌋ : ℚ) ≤ x := Int.floor_le x
  split_ifs with hf hg he
  · linarith
  · push_cast; linarith
  · linarith
  · push_cast
    have hb : ¬ (1/2 : ℚ) < x - ⌊x⌋ := hg
    linarith [not_lt.mp hf, not_lt.mp hb]

theorem roundHalfEven_mono {x y : ℚ} (h : x ≤ y) :
    roundHalfEven x ≤ roundHalfEven y := by
  unfold roundHalfEven
  have hfx : (⌊x⌋ : ℚ) ≤ x := Int.floor_le x
  have hfy : (⌊y⌋ : ℚ) ≤ y := Int.floor_le y
  have hx1 : x < ⌊x⌋ + 1 := Int.lt_floor_add_one x
  have hy1 : y < ⌊y⌋ + 1 := Int.lt_floor_add_one y
  have hfl : ⌊x⌋ ≤ ⌊y⌋ := Int.floor_le_floor h
  rcases eq_or_lt_of_le hfl with heq | hlt
  · rw [← heq]
    have hxy : x - ⌊x⌋ ≤ y - ⌊x⌋ := by linarith
    rw [← heq] at hfy hy1
    split_ifs <;> first | omega | (exfalso; linarith)
  · split_ifs <;> omega

theorem round1_le (x : ℚ) : round1 x ≤ x + 1/20 := by
  have h := roundHalfEven_le (x * 10 ^ 1)
  unfold round1 pyRound
  rw [div_le_iff₀ (by norm_num : (0:ℚ) < 10 ^ 1)]
  linarith

theorem round1_mono {x y : ℚ} (h : x ≤ y) : round1 x ≤ round1 y := by
  unfold round1 pyRound
  have : roundHalfEven (x * 10 ^ 1) ≤ roundHalfEven (y * 10 ^ 1) :=
    roundHalfEven_mono (by nlinarith)
  have h2 : ((roundHalfEven (x * 10 ^ 1) : ℚ)) ≤ ((roundHalfEven (y * 10 ^ 1) : ℚ)) := by
    exact_mod_cast this
  apply div_le_div_of_nonneg_right h2 (by norm_num)

/-! ### Pixel model

A decoded PIL image, converted by numpy, is a rectangular uint8 array of
shape (h, w) for mode L, (h, w, 3) for RGB, or (h, w, 4) for RGBA.  We model
the three shapes by three constructors; channel values are naturals (< 256
for genuine images, the definitions are total regardless). -/

/-- One RGB pixel: (r, g, b). -/
abbrev Rgb : Type := ℕ × ℕ × ℕ

/-- A numpy view of a decoded image; the constructor records the array shape
the way len(shape) and shape[2] observe it in the source. -/
inductive ImgArray
  | gray (rows : List (List ℕ))
  | rgb (rows : List (List Rgb))
  | rgba (rows : List (List (ℕ × ℕ × ℕ × ℕ)))

/-- Mean of all entries of a 2-dimensional array (np.mean).  An empty array
gives 0 here where numpy would give nan; every use in the claims is on
nonempty data. -/
def mean2d (a : List (List ℕ)) : ℚ :=
  (((a.map List.sum).sum : ℕ) : ℚ) / (((a.map List.length).sum : ℕ) : ℚ)

/-- The green-pixel test of _calculate_green_ratio, line 191:
(g > r * 1.2) & (g > b * 1.2) & (g > 40) & (g < 250).
The source compares the integer g with the float64 products r * 1.2 and
b * 1.2.  For integer channel values up to 255 the float comparison agrees
with the exact rational one: the float64 nearest to 1.2 is 1.2 - (1/5)*2^-52,
so the product is below 6r/5 by less than r * 2^-52, which is under half the
float spacing at that magnitude, hence the product rounds to 6r/5 exactly
when 6r/5 is an integer and stays well clear of any integer otherwise. -/
def greenPixel (p : Rgb) : Bool :=
  (decide ((p.1 : ℚ) * 1.2 < (p.2.1 : ℚ))) &&
  (decide ((p.2.2 : ℚ) * 1.2 < (p.2.1 : ℚ))) &&
  (decide (40 < p.2.1)) && (decide (p.2.1 < 250))

/-- The brown-pixel test of _calculate_brown_ratio, line 205:
(r > g) & (g > b) & (r > 50) & (r < 180) & (g > 30) & (g < 140). -/
def brownPixel (p : Rgb) : Bool :=
  (decide (p.2.1 < p.1)) && (decide (p.2.2 < p.2.1)) &&
  (decide (50 < p.1)) && (decide (p.1 < 180)) &&
  (decide (30 < p.2.1)) && (decide (p.2.1 < 140))

/-- ImageProcessor._calculate_green_ratio (lines 181-193): boolean mask over
the pixel grid, np.sum(mask) / mask.size, rounded to 3 decimals; 0.0 when the
array is not 3-dimensional with 3 channels. -/
def calculate_green_ratio : ImgArray → ℚ
  | .rgb rows =>
      let mask := rows.map (fun row => row.map greenPixel)
      let s : ℕ := (mask.map (fun r => r.countP id)).sum
      let size : ℕ := (mask.map List.length).sum
      round3 ((s : ℚ) / (size : ℚ))
  | _ => 0

/-- ImageProcessor._calculate_brown_ratio (lines 195-207). -/
def calculate_brown_ratio : ImgArray → ℚ
  | .rgb rows =>
      let mask := rows.map (fun row => row.map brownPixel)
      let s : ℕ := (mask.map (fun r => r.countP id)).sum
      let size : ℕ := (mask.map List.length).sum
      round3 ((s : ℚ) / (size : ℚ))
  | _ => 0

/-- Grayscale reduction of _calculate_texture_complexity (line 214):
np.mean(img_array, axis=2).astype(np.uint8).  The float mean of 3 (or 4)
channel values is (r+g+b)/3 up to an error far below 1/3, and astype
truncates toward zero, so the result is the floor of the exact mean. -/
def grayOf : ImgArray → List (List ℕ)
  | .gray rows => rows
  | .rgb rows => rows.map (fun row => row.map (fun p => (p.1 + p.2.1 + p.2.2) / 3))
  | .rgba rows =>
      rows.map (fun row => row.map (fun p => (p.1 + p.2.1 + p.2.2.1 + p.2.2.2) / 4))

/-- uint8 subtraction b - a as np.diff performs it on a uint8 array: the
difference wraps modulo 256.  np.abs on the resulting uint8 array is the
identity, so this is also the value after np.abs(np.diff(...)). -/
def diffU8 (a b : ℕ) : ℕ := (b % 256 + (256 - a % 256)) % 256

/-- Mathematical absolute difference of two channel values; what the spec
means by absolute pixel-to-pixel gradient. -/
def absDiff (a b : ℕ) : ℕ := ((b : ℤ) - (a : ℤ)).natAbs

/-- np.diff(gray, axis=1) composed with np.abs, per row, using a given
difference function. -/
def gradAxis1 (d : ℕ → ℕ → ℕ) (g : List (List ℕ)) : List (List ℕ) :=
  g.map (fun row => (row.zip row.tail).map (fun q => d q.1 q.2))

/-- np.diff(gray, axis=0) composed with np.abs, between consecutive rows. -/
def gradAxis0 (d : ℕ → ℕ → ℕ) (g : List (List ℕ)) : List (List ℕ) :=
  (g.zip g.tail).map (fun rr => (rr.1.zip rr.2).map (fun q => d q.1 q.2))

/-- ImageProcessor._calculate_texture_complexity (lines 209-225):
grad_x = np.abs(np.diff(gray, axis=0)), grad_y = np.abs(np.diff(gray, axis=1)),
result = round((np.mean(grad_x) + np.mean(grad_y)) / 2, 2).  Because gray is a
uint8 array, np.diff wraps modulo 256 and np.abs is the identity. -/
def calculate_texture_complexity (arr : ImgArray) : ℚ :=
  let g := grayOf arr
  round2 ((mean2d (gradAxis0 diffU8 g) + mean2d (gradAxis1 diffU8 g)) / 2)

/-- The spec reading of texture complexity (spec 4.2): the same computation
with the mathematical absolute difference of intensities in place of the
wrapped uint8 difference. -/
def texture_complexity_spec (arr : ImgArray) : ℚ :=
  let g := grayOf arr
  round2 ((mean2d (gradAxis0 absDiff g) + mean2d (gradAxis1 absDiff g)) / 2)

/-- Result record of _detect_leaf_edges (lines 227-243). -/
structure LeafEdges where
  edge_strength : ℚ
  has_clear_edges : Bool
deriving DecidableEq

/-- The channel plane used by _detect_leaf_edges: img_array[:, :, 1] for a
3-dimensional array, the array itself for a 2-dimensional one. -/
def greenPlane : ImgArray → List (List ℕ)
  | .rgb rows => rows.map (fun row => row.map (fun p => p.2.1))
  | .gray rows => rows
  | .rgba rows => rows.map (fun row => row.map (fun p => p.2.1))

/-- ImageProcessor._detect_leaf_edges (lines 227-243): mean of the wrapped
uint8 differences along axis 0 of the green plane; the boolean compares the
unrounded strength with 20. -/
def detect_leaf_edges (arr : ImgArray) : LeafEdges :=
  let s := mean2d (gradAxis0 diffU8 (greenPlane arr))
  { edge_strength := round2 s, has_clear_edges := decide (20 < s) }

/-- One entry of the dominant_colors list: color tuple and percentage. -/
structure DomColor where
  color : Rgb
  percentage : ℚ
deriving DecidableEq

/-- Coarse quantization of _get_dominant_colors, line 163:
(value >> 2) << 2 on uint8 data. -/
def quantize (v : ℕ) : ℕ := v % 256 / 4 * 4

/-- Descending-count order used to model np.argsort(-counts).  numpy sorts
arrays this small with a stable insertion sort, so ties keep the order
np.unique produced, which is lexicographic. -/
def byCountDesc (a b : Rgb × ℕ) : Prop := b.2 ≤ a.2

instance : DecidableRel byCountDesc := fun a b =>
  inferInstanceAs (Decidable (b.2 ≤ a.2))

instance : IsTotal (Rgb × ℕ) byCountDesc := ⟨fun a b => le_total b.2 a.2⟩

instance : IsTrans (Rgb × ℕ) byCountDesc := ⟨fun _ _ _ h1 h2 => le_trans h2 h1⟩

/-- Lexicographic order on color triples: the order np.unique(..., axis=0)
returns rows in. -/
def rgbLex (a b : Rgb) : Prop :=
  a.1 < b.1 ∨ (a.1 = b.1 ∧ (a.2.1 < b.2.1 ∨ (a.2.1 = b.2.1 ∧ a.2.2 ≤ b.2.2)))

instance : DecidableRel rgbLex := fun a b => by
  unfold rgbLex; infer_instance

/-- The flattened, quantized pixel list of _get_dominant_colors (lines
159-163): reshape(-1, 3) then (pixels >> 2) << 2. -/
def quantizedPixels (rows : List (List Rgb)) : List Rgb :=
  (rows.flatten).map (fun p => (quantize p.1, quantize p.2.1, quantize p.2.2))

/-- np.unique(..., axis=0, return_counts=True) at line 166: the distinct
quantized colors in lexicographic order, each with its occurrence count. -/
def colorCounts (rows : List (List Rgb)) : List (Rgb × ℕ) :=
  (List.insertionSort rgbLex (quantizedPixels rows).dedup).map
    (fun c => (c, @List.count Rgb instBEqOfDecidableEq c (quantizedPixels rows)))

/-- np.argsort(-counts) at line 169 applied to the unique colors: stable
reordering by descending count. -/
def sortedColorCounts (rows : List (List Rgb)) : List (Rgb × ℕ) :=
  List.insertionSort byCountDesc (colorCounts rows)

/-- ImageProcessor._get_dominant_colors (lines 152-179): flatten to pixels,
quantize, count the distinct quantized colors, order by descending count,
keep the first 5, report each with round(count / total * 100, 1). -/
def get_dominant_colors (rows : List (List Rgb)) : List DomColor :=
  ((sortedColorCounts rows).take 5).map (fun ck =>
    { color := ck.1,
      percentage := round1 ((ck.2 : ℚ) / ((rows.flatten).length : ℚ) * 100) })

/-- All channel values of the array in order: the flat view np.mean and
np.std reduce over for an (h, w, 3) array. -/
def channelValues (rows : List (List Rgb)) : List ℕ :=
  (rows.flatten).flatMap (fun p => [p.1, p.2.1, p.2.2])

/-- float(np.mean(img_array)) at line 135: mean of every channel value. -/
def brightnessOf (rows : List (List Rgb)) : ℚ :=
  ((channelValues rows).sum : ℚ) / ((channelValues rows).length : ℚ)

/-- The square of float(np.std(img_array)) at line 136, i.e. the variance of
the channel values.  np.std itself is the irrational square root; every use
of contrast in the source and the claims is a comparison against a constant
threshold, which the squared value determines, so the model stores the
square. -/
def contrastSqOf (rows : List (List Rgb)) : ℚ :=
  let c := channelValues rows
  ((((c.map (fun v => v * v)).sum : ℕ) : ℚ) / ((c.length : ℕ) : ℚ)) - brightnessOf rows ^ 2

/-- ImageProcessor._detect_visual_issues (lines 245-269).  The contrast < 20
test on the standard deviation is modelled by variance < 400, equivalent for
the nonnegative deviation. -/
def detect_visual_issues (brown_r green_r bright contrast_sq : ℚ) : List String :=
  (if 3/10 < brown_r then
    ["High brown color ratio - possible dead or diseased areas"] else []) ++
  (if green_r < 1/10 then
    ["Low green color ratio - may not be a healthy plant"] else []) ++
  (if bright < 50 then ["Image too dark for accurate analysis"]
   else if 220 < bright then ["Image overexposed - details may be lost"] else []) ++
  (if contrast_sq < 400 then
    ["Low contrast - image may be blurry or out of focus"] else [])

/-- The feature dictionary built by extract_plant_features (lines 133-144). -/
structure Features where
  dominant_colors : List DomColor
  brightness : ℚ
  contrast_sq : ℚ
  green_ratio : ℚ
  brown_ratio : ℚ
  texture_complexity : ℚ
  leaf_edge_detection : LeafEdges
  potential_issues : List String
deriving DecidableEq

/-- ImageProcessor.extract_plant_features (lines 112-146) on an image already
converted to RGB (line 126 converts any other mode), as a total function on
the pixel grid.  The except branch of the source (line 148, returning the
empty dictionary) is modelled at the call site by an Option Features. -/
def extract_plant_features (rows : List (List Rgb)) : Features :=
  let a := ImgArray.rgb rows
  let green := calculate_green_ratio a
  let brown := calculate_brown_ratio a
  let bright := brightnessOf rows
  let csq := contrastSqOf rows
  { dominant_colors := get_dominant_colors rows
    brightness := bright
    contrast_sq := csq
    green_ratio := green
    brown_ratio := brown
    texture_complexity := calculate_texture_complexity a
    leaf_edge_detection := detect_leaf_edges a
    potential_issues := detect_visual_issues brown green bright csq }

/-! ### Normalizer and validator (process_image, validate_plant_image)

The decode step itself is the external PIL library; its observable outcome is
either a failure (malformed bytes) or a decoded image with a format
identifier, pixel dimensions and an EXIF orientation.  PIL reports the format
of a decoded file by the registered plugin name; the possible names form a
fixed set (JPEG, PNG, WEBP, GIF, ...) that never contains the string JPG, so
the JPG entry of ALLOWED_FORMATS (line 22) is unreachable. -/

/-- Format identifiers PIL can report for a successfully decoded image. -/
inductive PILFormat
  | JPEG | PNG | WEBP | GIF | BMP | TIFF | ICO | PCX | PPM | TGA
deriving DecidableEq

/-- The string PIL stores in Image.format for each decoded format. -/
def PILFormat.name : PILFormat → String
  | .JPEG => "JPEG"
  | .PNG => "PNG"
  | .WEBP => "WEBP"
  | .GIF => "GIF"
  | .BMP => "BMP"
  | .TIFF => "TIFF"
  | .ICO => "ICO"
  | .PCX => "PCX"
  | .PPM => "PPM"
  | .TGA => "TGA"

/-- ImageProcessor.ALLOWED_FORMATS, line 22 (a Python set; membership is all
that is ever used, so a list models it). -/
def ALLOWED_FORMATS : List String := ["JPEG", "PNG", "JPG", "WEBP"]

/-- ImageProcessor.MAX_SIZE, line 21. -/
def MAX_SIZE : ℕ × ℕ := (1024, 1024)

/-- ImageProcessor.MIN_SIZE, line 23. -/
def MIN_SIZE : ℕ × ℕ := (100, 100)

/-- A successfully decoded image as process_image observes it: format,
dimensions, and whether the EXIF orientation tag transposes the axes
(ImageOps.exif_transpose, line 63).  The pixel contents do not influence
control flow in process_image, so they are not carried here; the pixel-level
feature computations are modelled separately above. -/
structure DecodedImage where
  format : PILFormat
  width : ℕ
  height : ℕ
  exifSwap : Bool
deriving DecidableEq

/-- The failure modes of process_image.  The source raises ValueError on all
of them and re-wraps any exception at line 92 into
ValueError("Failed to process image: ..."); the constructor records which
check fired, message reconstructs the wrapped text. -/
inductive ProcErr
  | unsupportedFormat (f : PILFormat)
  | tooSmall (w h : ℕ)
  | decodeFailure (pilMsg : String)
deriving DecidableEq

/-- str(e) of the ValueError the caller of process_image sees (line 92 wraps
the message of the inner exception). -/
def ProcErr.message : ProcErr → String
  | .unsupportedFormat f => "Failed to process image: Unsupported image format: " ++ f.name
  | .tooSmall w h =>
      "Failed to process image: Image too small: (" ++ toString w ++ ", " ++ toString h ++ ")"
  | .decodeFailure m => "Failed to process image: " ++ m

/-- The rounding PIL.Image.thumbnail applies to the scaled coordinate: the
one of floor and ceiling minimizing the given key (floor on ties, as Python
min keeps the first argument), then clamped to at least 1. -/
def roundAspect (v : ℚ) (key : ℤ → ℚ) : ℕ :=
  (max (if key ⌊v⌋ ≤ key ⌈v⌉ then ⌊v⌋ else ⌈v⌉) 1).toNat

/-- PIL.Image.thumbnail((1024, 1024)) on an image of size w by h, as called
at line 75: scale to fit the box preserving the aspect ratio.  Transcribed
from the PIL source: if the box already contains the image nothing changes;
otherwise the longer relative side is pinned to 1024 and the other side is
the aspect-preserving value rounded by roundAspect with the key PIL uses in
that branch. -/
def thumbnailFit (w h : ℕ) : ℕ × ℕ :=
  if w ≤ 1024 ∧ h ≤ 1024 then (w, h)
  else if (w : ℚ) / (h : ℚ) ≤ 1 then
    (roundAspect (1024 * ((w : ℚ) / (h : ℚ)))
      (fun n => |(w : ℚ) / (h : ℚ) - (n : ℚ) / 1024|), 1024)
  else
    (1024, roundAspect (1024 / ((w : ℚ) / (h : ℚ)))
      (fun n => if n = 0 then 0 else |(w : ℚ) / (h : ℚ) - 1024 / (n : ℚ)|))

/-- Dimension-relevant outcome of process_image: the size of the re-encoded
image and whether the resize branch ran (metadata["resized"], line 76).
Re-encoding to JPEG (line 81) and the enhancement filters (lines 95-109)
keep the pixel dimensions, so the size after the thumbnail call is the size
of the returned bytes. -/
structure NormalizedImage where
  width : ℕ
  height : ℕ
  resized : Bool
deriving DecidableEq

/-- Dimensions after ImageOps.exif_transpose (line 63): orientations 5-8
swap the axes.  The size validation at line 48 runs before this. -/
def orientedSize (d : DecodedImage) : ℕ × ℕ :=
  if d.exifSwap then (d.height, d.width) else (d.width, d.height)

/-- ImageProcessor.process_image (lines 26-92) restricted to its
control-flow and dimension behavior: format check (line 44), minimum size
check (line 48), orientation fix, resize when a side exceeds MAX_SIZE
(lines 74-77).  Raised ValueErrors become the error branch. -/
def process_image (d : DecodedImage) : Except ProcErr NormalizedImage :=
  if d.format.name ∈ ALLOWED_FORMATS then
    if d.width < MIN_SIZE.1 ∨ d.height < MIN_SIZE.2 then
      .error (.tooSmall d.width d.height)
    else if MAX_SIZE.1 < (orientedSize d).1 ∨ MAX_SIZE.2 < (orientedSize d).2 then
      .ok { width := (thumbnailFit (orientedSize d).1 (orientedSize d).2).1,
            height := (thumbnailFit (orientedSize d).1 (orientedSize d).2).2,
            resized := true }
    else
      .ok { width := (orientedSize d).1, height := (orientedSize d).2,
            resized := false }
  else .error (.unsupportedFormat d.format)

/-- One call to validate_plant_image, by its observable input: either the
byte buffer fails to decode (Image.open raises, with the PIL message), or it
decodes to an image, in which case the later feature extraction on the
processed bytes either succeeds with a feature record or hits an internal
fault.  extract_plant_features catches every exception and returns the empty
dictionary (lines 148-150); none models that empty dictionary. -/
inductive RawInput
  | undecodable (pilMsg : String)
  | decoded (d : DecodedImage) (extracted : Option Features)

/-- Rejection message at line 291. -/
def msgNoPlant : String := "Image doesn\x27t appear to contain a plant (very low green content)"

/-- Rejection message at line 295. -/
def msgTooDark : String := "Image is too dark for analysis"

/-- Rejection message at line 297. -/
def msgTooBright : String := "Image is too bright/overexposed for analysis"

/-- Rejection message at line 300 (dead branch, kept for fidelity). -/
def msgTooBright2 : String := "Image is too bright/overexposed"

/-- features.get("green_ratio", 0) at line 290. -/
def dictGreen : Option Features → ℚ
  | none => 0
  | some f => f.green_ratio

/-- features.get("brightness", 128) at line 293. -/
def dictBrightness : Option Features → ℚ
  | none => 128
  | some f => f.brightness

/-- features.get("brightness", 0) at line 299. -/
def dictBrightness0 : Option Features → ℚ
  | none => 0
  | some f => f.brightness

/-- Lines 289-302 of validate_plant_image: the admission rules applied to
the extracted feature dictionary.  The dict functions model features.get
with its default: the empty dictionary (extraction fault) yields 0 for
green_ratio, 128 and then 0 for brightness, exactly as the source. -/
def validate_features (feats : Option Features) : Bool × Option String :=
  if dictGreen feats < 1/20 then (false, some msgNoPlant)
  else if dictBrightness feats < 30 then (false, some msgTooDark)
  else if 250 < dictBrightness feats then (false, some msgTooBright)
  else if 250 < dictBrightness0 feats then (false, some msgTooBright2)
  else (true, none)

/-- ImageProcessor.validate_plant_image (lines 272-306): process the image,
extract features from the processed bytes, apply the admission rules; any
exception is caught at line 304 and returned as (False, str(e)).  The
function is total: every failure of the Python body is an Exception caught
there, so no input raises to the caller. -/
def validate_plant_image : RawInput → Bool × Option String
  | .undecodable m => (false, some (ProcErr.message (.decodeFailure m)))
  | .decoded d feats =>
      match process_image d with
      | .error e => (false, some e.message)
      | .ok _ => validate_features feats

/-- The outcome of the process_image stage for a whole validate call. -/
def processRawResult : RawInput → Except ProcErr Unit
  | .undecodable m => .error (.decodeFailure m)
  | .decoded d _ => (process_image d).map (fun _ => ())

/-! ### Spec-side definitions, for refinement comparisons -/

/-- The ordered list of all applicable rejection reasons named by the spec
(section 4.3): green rule, then darkness, then overexposure. -/
def specRejectionReasons (f : Features) : List String :=
  (if f.green_ratio < 1/20 then [msgNoPlant] else []) ++
  (if f.brightness < 30 then [msgTooDark] else []) ++
  (if 250 < f.brightness then [msgTooBright] else [])

/-- The generic reason the spec (section 7) prescribes for an internal fault
during feature extraction. -/
def specGenericReason : String := "could not analyze image"

/-- The green-pixel predicate as the claim words it: the green channel
strictly exceeds 1.2 times the red and the blue channel and lies strictly
between 40 and 250. -/
def specGreenPixel (p : Rgb) : Prop :=
  (1.2 : ℚ) * (p.1 : ℚ) < (p.2.1 : ℚ) ∧ (1.2 : ℚ) * (p.2.2 : ℚ) < (p.2.1 : ℚ) ∧
  40 < p.2.1 ∧ p.2.1 < 250

instance : DecidablePred specGreenPixel := fun p => by
  unfold specGreenPixel; infer_instance

/-! ### Concrete inputs used by counterexamples and witnesses -/

/-- A uniformly black RGB pixel grid of n rows and m columns. -/
def blackImage (n m : ℕ) : List (List Rgb) :=
  List.replicate n (List.replicate m ((0, 0, 0) : Rgb))

/-- A 2 by 2 image whose top row is bright gray (intensity 200) and whose
bottom row is dark gray (intensity 10): one strong vertical edge. -/
def texExample : List (List Rgb) :=
  [[(200, 200, 200), (200, 200, 200)], [(10, 10, 10), (10, 10, 10)]]

/-- An 8 by 8 image with 28 pixels of one color and 12 each of three others;
all four colors are fixed by the quantization.  The four percentages are
43.75 and three times 18.75, each of which rounds up at one decimal. -/
def domExample : List (List Rgb) :=
  [List.replicate 8 ((0, 0, 0) : Rgb),
   List.replicate 8 ((0, 0, 0) : Rgb),
   List.replicate 8 ((0, 0, 0) : Rgb),
   List.replicate 4 ((0, 0, 0) : Rgb) ++ List.replicate 4 ((4, 0, 0) : Rgb),
   List.replicate 8 ((4, 0, 0) : Rgb),
   List.replicate 8 ((8, 0, 0) : Rgb),
   List.replicate 4 ((8, 0, 0) : Rgb) ++ List.replicate 4 ((12, 0, 0) : Rgb),
   List.replicate 8 ((12, 0, 0) : Rgb)]

/-- A decoded 50 by 50 GIF: unsupported format and below minimum size. -/
def gifSmall : DecodedImage :=
  { format := .GIF, width := 50, height := 50, exifSwap := false }

/-- A decoded 2048 by 1024 JPEG: valid, above the maximum size. -/
def jpegBig : DecodedImage :=
  { format := .JPEG, width := 2048, height := 1024, exifSwap := false }

/-- A decoded 200 by 200 JPEG: valid, no resize needed. -/
def jpegOk : DecodedImage :=
  { format := .JPEG, width := 200, height := 200, exifSwap := false }

/-- A feature record with no green and brightness 0: both the green rule and
the darkness rule apply. -/
def darkGreenlessFeatures : Features :=
  { dominant_colors := []
    brightness := 0
    contrast_sq := 0
    green_ratio := 0
    brown_ratio := 0
    texture_complexity := 0
    leaf_edge_detection := { edge_strength := 0, has_clear_edges := false }
    potential_issues := [] }

/-! ### Claims -/

/-- C1: for every feature record, the admission decision accepts exactly
when no rejecting rule fires, the rejecting rules being green_ratio below
0.05, brightness below 30 and brightness above 250; brown_ratio, contrast
and the advisory issue list never influence acceptance (the record f is
arbitrary in those fields). -/
theorem C1_admission_iff (f : Features) :
    (validate_features (some f)).1 = true ↔
      ¬ (f.green_ratio < 1/20 ∨ f.brightness < 30 ∨ 250 < f.brightness) := by
  simp only [validate_features, dictGreen, dictBrightness, dictBrightness0]
  split_ifs <;> simp <;>
    first
    | (intro a b; linarith)
    | (exact ⟨by linarith, by linarith, by linarith⟩)

/-- C2 counterexample: a feature record to which both the green rule and the
darkness rule apply yields a verdict carrying only the green reason; the
darkness reason, though applicable, is absent, so the verdict does not carry
every applicable reason. -/
theorem C2_cex :
    validate_features (some darkGreenlessFeatures) = (false, some msgNoPlant) ∧
    darkGreenlessFeatures.brightness < 30 ∧ msgNoPlant ≠ msgTooDark := by
  refine ⟨?_, by norm_num [darkGreenlessFeatures], by decide⟩
  norm_num [validate_features, dictGreen, darkGreenlessFeatures]

/-- C2 amended: the verdict is a single optional message, namely the head of
the ordered list of applicable rejection reasons (first-match policy); the
acceptance flag is true exactly when that list is empty. -/
theorem C2_first_reason (f : Features) :
    (validate_features (some f)).1 = (specRejectionReasons f).isEmpty ∧
    (validate_features (some f)).2 = (specRejectionReasons f).head? := by
  simp only [validate_features, dictGreen, dictBrightness, dictBrightness0,
    specRejectionReasons]
  split_ifs <;> simp_all

/-- ALLOWED_FORMATS contains the dead entry JPG, which PIL never reports;
over the formats PIL can report, membership coincides with the three-format
set of the spec. -/
lemma allowed_formats_names (fmt : PILFormat) :
    fmt.name ∈ ALLOWED_FORMATS ↔
      fmt ∈ [PILFormat.JPEG, PILFormat.PNG, PILFormat.WEBP] := by
  cases fmt <;> decide

/-- When the format is allowed and the size is not below the minimum,
process_image succeeds. -/
lemma process_image_ok (d : DecodedImage)
    (hf : d.format.name ∈ ALLOWED_FORMATS)
    (hs : ¬ (d.width < MIN_SIZE.1 ∨ d.height < MIN_SIZE.2)) :
    ∃ out, process_image d = .ok out := by
  unfold process_image
  rw [if_pos hf, if_neg hs]
  split_ifs <;> exact ⟨_, rfl⟩

/-- C3 counterexample: a decoded 50 by 50 GIF has a dimension below 100 yet
process_image fails with the unsupported-format error, not the too-small
error, because the format check runs first; so failing with the too-small
error is not equivalent to a dimension being below 100. -/
theorem C3_cex :
    process_image gifSmall = .error (.unsupportedFormat .GIF) ∧
    gifSmall.width < 100 :=
  ⟨rfl, by decide⟩

/-- C3 amended: over decoded inputs, the unsupported-format failure occurs
exactly when the decoded format is outside the three-format set; the
too-small failure occurs exactly when the format is in that set and a
dimension is below 100 (the format check precedes the size check); and on
any process_image failure the validate call returns that failure without
consulting feature extraction, whatever its outcome would have been. -/
theorem C3_error_conditions (d : DecodedImage) :
    ((∃ f, process_image d = .error (.unsupportedFormat f)) ↔
       d.format ∉ [PILFormat.JPEG, PILFormat.PNG, PILFormat.WEBP]) ∧
    ((∃ w h, process_image d = .error (.tooSmall w h)) ↔
       (d.format ∈ [PILFormat.JPEG, PILFormat.PNG, PILFormat.WEBP] ∧
        (d.width < 100 ∨ d.height < 100))) ∧
    (∀ e feats, process_image d = .error e →
       validate_plant_image (.decoded d feats) = (false, some e.message)) := by
  have hiff := allowed_formats_names d.format
  by_cases hf : d.format.name ∈ ALLOWED_FORMATS
  · by_cases hs : d.width < MIN_SIZE.1 ∨ d.height < MIN_SIZE.2
    · have hp : process_image d = .error (.tooSmall d.width d.height) := by
        unfold process_image
        rw [if_pos hf, if_pos hs]
      refine ⟨?_, ?_, ?_⟩
      · simp [hp, hiff.mp hf]
      · simp only [MIN_SIZE] at hs
        simp [hp, hiff.mp hf, hs]
      · intro e feats he
        rw [hp] at he
        injection he with h
        subst h
        simp [validate_plant_image, hp]
    · obtain ⟨out, hp⟩ := process_image_ok d hf hs
      simp only [MIN_SIZE] at hs
      refine ⟨?_, ?_, ?_⟩
      · simp [hp, hiff.mp hf]
      · simp [hp, hs]
      · intro e feats he
        rw [hp] at he
        exact absurd he (by simp)
  · have hp : process_image d = .error (.unsupportedFormat d.format) := by
      unfold process_image
      rw [if_neg hf]
    have hnm : d.format ∉ [PILFormat.JPEG, PILFormat.PNG, PILFormat.WEBP] :=
      fun hmem => hf (hiff.mpr hmem)
    refine ⟨?_, ?_, ?_⟩
    · simp [hp, hnm]
    · simp [hp, hnm]
    · intro e feats he
      rw [hp] at he
      injection he with h
      subst h
      simp [validate_plant_image, hp]

/-- C3 witness: the amended theorem applied to the small GIF: its failure is
the unsupported-format error and the validate call surfaces exactly that
message. -/
theorem C3_error_conditions_witness :
    validate_plant_image (.decoded gifSmall none) =
      (false, some (ProcErr.message (.unsupportedFormat .GIF))) :=
  (C3_error_conditions gifSmall).2.2 (.unsupportedFormat .GIF) none rfl

/-- roundAspect never exceeds an integer bound that bounds its input. -/
lemma roundAspect_le {v : ℚ} {k : ℤ → ℚ} {B : ℕ} (hB : 1 ≤ B)
    (hv : v ≤ (B : ℚ)) : roundAspect v k ≤ B := by
  have hfc : ⌊v⌋ ≤ ⌈v⌉ := Int.floor_le_ceil v
  have hcB : ⌈v⌉ ≤ (B : ℤ) := Int.ceil_le.mpr (by exact_mod_cast hv)
  unfold roundAspect
  split_ifs <;> omega

/-- roundAspect lands within one unit of its input, whatever key is used:
both rounding candidates are within one, and the clamp to 1 only moves the
value toward a nonnegative input. -/
lemma roundAspect_near {v : ℚ} {k : ℤ → ℚ} (hv : 0 ≤ v) :
    |(roundAspect v k : ℚ) - v| ≤ 1 := by
  have h1 : (⌊v⌋ : ℚ) ≤ v := Int.floor_le v
  have h2 : v < ⌊v⌋ + 1 := Int.lt_floor_add_one v
  have h3 : v ≤ ⌈v⌉ := Int.le_ceil v
  have h4 : (⌈v⌉ : ℚ) < v + 1 := Int.ceil_lt_add_one v
  unfold roundAspect
  split_ifs with hkey
  · rcases le_or_lt 1 ⌊v⌋ with hge | hlt
    · rw [max_eq_left hge]
      rw [show ((⌊v⌋.toNat : ℕ) : ℚ) = ((⌊v⌋ : ℤ) : ℚ) from by
        exact_mod_cast Int.toNat_of_nonneg (by omega)]
      rw [abs_le]
      constructor <;> linarith
    · rw [max_eq_right (by omega : ⌊v⌋ ≤ 1)]
      have hv1 : v < 2 := by
        have : (⌊v⌋ : ℚ) ≤ 0 := by exact_mod_cast (by omega : ⌊v⌋ ≤ (0:ℤ))
        linarith
      simp only [Int.toNat_one, Nat.cast_one]
      rw [abs_le]
      constructor <;> linarith
  · rcases le_or_lt 1 ⌈v⌉ with hge | hlt
    · rw [max_eq_left hge]
      rw [show ((⌈v⌉.toNat : ℕ) : ℚ) = ((⌈v⌉ : ℤ) : ℚ) from by
        exact_mod_cast Int.toNat_of_nonneg (by omega)]
      rw [abs_le]
      constructor <;> linarith
    · rw [max_eq_right (by omega : ⌈v⌉ ≤ 1)]
      have hv0 : v ≤ 0 := by
        have : (⌈v⌉ : ℚ) ≤ 0 := by exact_mod_cast (by omega : ⌈v⌉ ≤ (0:ℤ))
        linarith
      simp only [Int.toNat_one, Nat.cast_one]
      rw [abs_le]
      constructor <;> linarith

/-- Bounds of the thumbnail computation on an image exceeding the box: both
output sides fit in 1024 and the output cross-ratio differs from the input
cross-ratio by at most one scaled pixel. -/
lemma thumbnailFit_spec {w h : ℕ} (hw : 1 ≤ w) (hh : 1 ≤ h)
    (hbig : ¬ (w ≤ 1024 ∧ h ≤ 1024)) :
    (thumbnailFit w h).1 ≤ 1024 ∧ (thumbnailFit w h).2 ≤ 1024 ∧
    |((thumbnailFit w h).1 : ℚ) * (h : ℚ) - ((thumbnailFit w h).2 : ℚ) * (w : ℚ)|
      ≤ max (w : ℚ) (h : ℚ) := by
  have hw0 : (0:ℚ) < (w:ℚ) := by exact_mod_cast hw
  have hh0 : (0:ℚ) < (h:ℚ) := by exact_mod_cast hh
  unfold thumbnailFit
  rw [if_neg hbig]
  split_ifs with hasp
  · dsimp only
    have hwh : (w:ℚ) ≤ (h:ℚ) := by
      rw [div_le_one hh0] at hasp
      exact hasp
    have hvnn : (0:ℚ) ≤ 1024 * ((w:ℚ)/(h:ℚ)) := by positivity
    have hvle : 1024 * ((w:ℚ)/(h:ℚ)) ≤ ((1024 : ℕ) : ℚ) := by
      push_cast
      nlinarith [div_le_one hh0 |>.mpr hwh]
    refine ⟨roundAspect_le (by norm_num) hvle, le_refl _, ?_⟩
    have hnear := roundAspect_near (k := fun n => |(w : ℚ) / (h : ℚ) - (n : ℚ) / 1024|) hvnn
    have hmul : |((roundAspect (1024 * ((w:ℚ)/(h:ℚ)))
        (fun n => |(w : ℚ) / (h : ℚ) - (n : ℚ) / 1024|) : ℚ)
          - 1024 * ((w:ℚ)/(h:ℚ))) * (h:ℚ)| ≤ 1 * (h:ℚ) := by
      rw [abs_mul, abs_of_pos hh0]
      exact mul_le_mul_of_nonneg_right hnear (le_of_lt hh0)
    have hexp : (1024 * ((w:ℚ)/(h:ℚ))) * (h:ℚ) = 1024 * (w:ℚ) := by
      field_simp
    rw [sub_mul, hexp] at hmul
    have hmax : max (w:ℚ) (h:ℚ) = (h:ℚ) := max_eq_right hwh
    rw [hmax]
    simp only [Nat.cast_ofNat]
    exact le_trans hmul (by linarith)
  · dsimp only
    have hhw : (h:ℚ) < (w:ℚ) := by
      rw [not_le, lt_div_iff₀ hh0, one_mul] at hasp
      exact hasp
    have haspq : (w:ℚ)/(h:ℚ) ≠ 0 := by positivity
    have hveq : 1024 / ((w:ℚ)/(h:ℚ)) = 1024 * (h:ℚ) / (w:ℚ) := by
      field_simp
    have hvnn : (0:ℚ) ≤ 1024 / ((w:ℚ)/(h:ℚ)) := by positivity
    have hvle : 1024 / ((w:ℚ)/(h:ℚ)) ≤ ((1024 : ℕ) : ℚ) := by
      rw [hveq]
      push_cast
      rw [div_le_iff₀ hw0]
      nlinarith
    refine ⟨le_refl _, roundAspect_le (by norm_num) hvle, ?_⟩
    have hnear := roundAspect_near
      (k := fun n => if n = 0 then 0 else |(w : ℚ) / (h : ℚ) - 1024 / (n : ℚ)|) hvnn
    have hmul : |((roundAspect (1024 / ((w:ℚ)/(h:ℚ)))
        (fun n => if n = 0 then 0 else |(w : ℚ) / (h : ℚ) - 1024 / (n : ℚ)|) : ℚ)
          - 1024 / ((w:ℚ)/(h:ℚ))) * (w:ℚ)| ≤ 1 * (w:ℚ) := by
      rw [abs_mul, abs_of_pos hw0]
      exact mul_le_mul_of_nonneg_right hnear (le_of_lt hw0)
    have hexp : (1024 / ((w:ℚ)/(h:ℚ))) * (w:ℚ) = 1024 * (h:ℚ) := by
      field_simp
    rw [sub_mul, hexp] at hmul
    have hmax : max (w:ℚ) (h:ℚ) = (w:ℚ) := max_eq_left (le_of_lt hhw)
    rw [hmax]
    rw [abs_sub_comm] at hmul
    simp only [Nat.cast_ofNat]
    exact le_trans hmul (by linarith)

/-- C4: every decoded JPEG, PNG or WEBP image with both dimensions at least
100 is processed successfully; the output dimensions never exceed 1024, and
when the resize branch ran the output size preserves the (post-orientation)
aspect ratio up to the sub-pixel rounding of the scaled coordinate: the
cross product of the sizes differs from zero by at most the longer side. -/
theorem C4_normalized_bounds (d : DecodedImage)
    (hf : d.format ∈ [PILFormat.JPEG, PILFormat.PNG, PILFormat.WEBP])
    (hw : 100 ≤ d.width) (hh : 100 ≤ d.height) :
    ∃ out, process_image d = .ok out ∧ out.width ≤ 1024 ∧ out.height ≤ 1024 ∧
      (out.resized = true →
        |((out.width : ℚ)) * (((orientedSize d).2 : ℕ) : ℚ) -
          ((out.height : ℚ)) * (((orientedSize d).1 : ℕ) : ℚ)|
          ≤ max (((orientedSize d).1 : ℕ) : ℚ) (((orientedSize d).2 : ℕ) : ℚ)) := by
  have hfn : d.format.name ∈ ALLOWED_FORMATS := (allowed_formats_names d.format).mpr hf
  have hs : ¬ (d.width < MIN_SIZE.1 ∨ d.height < MIN_SIZE.2) := by
    simp only [MIN_SIZE]
    omega
  have how : 1 ≤ (orientedSize d).1 := by
    unfold orientedSize
    split_ifs <;> simp <;> omega
  have hoh : 1 ≤ (orientedSize d).2 := by
    unfold orientedSize
    split_ifs <;> simp <;> omega
  unfold process_image
  rw [if_pos hfn, if_neg hs]
  split_ifs with hbig
  · have hbig2 : ¬ ((orientedSize d).1 ≤ 1024 ∧ (orientedSize d).2 ≤ 1024) := by
      simp only [MAX_SIZE] at hbig
      omega
    obtain ⟨l1, l2, l3⟩ := thumbnailFit_spec how hoh hbig2
    exact ⟨_, rfl, l1, l2, fun _ => l3⟩
  · simp only [MAX_SIZE] at hbig
    push_neg at hbig
    refine ⟨_, rfl, ?_, ?_, ?_⟩
    · simpa using hbig.1
    · simpa using hbig.2
    · intro hfalse
      simp at hfalse

/-- C4 witness: the theorem applied to a decoded 2048 by 1024 JPEG. -/
theorem C4_normalized_bounds_witness :
    ∃ out, process_image jpegBig = .ok out ∧ out.width ≤ 1024 ∧
      out.height ≤ 1024 ∧
      (out.resized = true →
        |((out.width : ℚ)) * (((orientedSize jpegBig).2 : ℕ) : ℚ) -
          ((out.height : ℚ)) * (((orientedSize jpegBig).1 : ℕ) : ℚ)|
          ≤ max (((orientedSize jpegBig).1 : ℕ) : ℚ)
              (((orientedSize jpegBig).2 : ℕ) : ℚ)) :=
  C4_normalized_bounds jpegBig (by decide) (by decide) (by decide)

/-- The mask test of the source equals the claim-side predicate. -/
lemma greenPixel_eq_spec (p : Rgb) :
    greenPixel p = decide (specGreenPixel p) := by
  simp only [greenPixel, specGreenPixel, Bool.decide_and, Bool.and_assoc, mul_comm]

/-- C5: on a three-channel RGB grid, green_ratio is the rounded fraction of
pixels satisfying the claimed predicate (green strictly above 1.2 times red
and blue, strictly between 40 and 250) over the total pixel count; on a
grayscale or four-channel array it is 0. -/
theorem C5_green_ratio_fraction :
    (∀ rows : List (List Rgb),
       calculate_green_ratio (.rgb rows) =
         round3 (((rows.flatten.countP (fun p => decide (specGreenPixel p))) : ℚ) /
           ((rows.flatten.length : ℕ) : ℚ))) ∧
    (∀ rows, calculate_green_ratio (.gray rows) = 0) ∧
    (∀ rows, calculate_green_ratio (.rgba rows) = 0) := by
  refine ⟨?_, fun rows => rfl, fun rows => rfl⟩
  intro rows
  have hnum : ((rows.map (fun row => row.map greenPixel)).map
      (fun r => r.countP id)).sum =
      rows.flatten.countP (fun p => decide (specGreenPixel p)) := by
    rw [List.map_map, List.countP_flatten]
    apply congrArg List.sum
    apply List.map_congr_left
    intro row _
    simp only [Function.comp]
    rw [List.countP_map]
    apply List.countP_congr
    intro a _
    simp [Function.comp, greenPixel_eq_spec]
  have hden : ((rows.map (fun row => row.map greenPixel)).map List.length).sum =
      rows.flatten.length := by
    rw [List.map_map, List.length_flatten]
    apply congrArg List.sum
    apply List.map_congr_left
    intro row _
    simp [Function.comp]
  simp only [calculate_green_ratio]
  rw [hnum, hden]

/-- Evaluation of roundHalfEven at an integer. -/
lemma roundHalfEven_intCast (n : ℤ) : roundHalfEven ((n : ℤ) : ℚ) = n := by
  unfold roundHalfEven
  rw [Int.floor_intCast]
  norm_num

/-- Evaluation rule for pyRound when the scaled value is an integer. -/
lemma pyRound_eq_int (d : ℕ) (x : ℚ) (n : ℤ) (h : x * 10 ^ d = (n : ℚ)) :
    pyRound d x = (n : ℚ) / 10 ^ d := by
  rw [pyRound, h, roundHalfEven_intCast]

/-- C6: on the concrete two-row image texExample, whose two grayscale rows
are 200 and 10, the implemented texture complexity is 33 — each vertical
difference 10 - 200 wraps to 66 in uint8 — while the average of the true
absolute differences prescribed by the claim is 95 (vertical difference 190, the
horizontal differences 0). -/
theorem C6_texture_uint8_wraparound :
    calculate_texture_complexity (.rgb texExample) = 33 ∧
    texture_complexity_spec (.rgb texExample) = 95 := by
  constructor
  · have h1 : mean2d (gradAxis0 diffU8 (grayOf (ImgArray.rgb texExample))) = 66 := by
      norm_num [texExample, grayOf, gradAxis0, mean2d, diffU8,
        List.zip_cons_cons, List.tail_cons]
    have h2 : mean2d (gradAxis1 diffU8 (grayOf (ImgArray.rgb texExample))) = 0 := by
      norm_num [texExample, grayOf, gradAxis1, mean2d, diffU8,
        List.zip_cons_cons, List.tail_cons]
    simp only [calculate_texture_complexity]
    rw [h1, h2, round2, show ((66:ℚ) + 0) / 2 = 33 by norm_num,
      pyRound_eq_int 2 33 3300 (by norm_num)]
    norm_num
  · have h1 : mean2d (gradAxis0 absDiff (grayOf (ImgArray.rgb texExample))) = 190 := by
      norm_num [texExample, grayOf, gradAxis0, mean2d, absDiff,
        List.zip_cons_cons, List.tail_cons]
    have h2 : mean2d (gradAxis1 absDiff (grayOf (ImgArray.rgb texExample))) = 0 := by
      norm_num [texExample, grayOf, gradAxis1, mean2d, absDiff,
        List.zip_cons_cons, List.tail_cons]
    simp only [texture_complexity_spec]
    rw [h1, h2, round2, show ((190:ℚ) + 0) / 2 = 95 by norm_num,
      pyRound_eq_int 2 95 9500 (by norm_num)]
    norm_num

/-- Flattening n copies of m copies of a value. -/
lemma flatten_replicate_replicate {α : Type _} (n m : ℕ) (a : α) :
    (List.replicate n (List.replicate m a)).flatten = List.replicate (n * m) a := by
  induction n with
  | zero => simp
  | succ k ih =>
      rw [List.replicate_succ, List.flatten_cons, ih,
        show (k + 1) * m = m + k * m by ring, List.replicate_add]

/-- The channel list of a black pixel grid is all zeros. -/
lemma channelValues_black (n m : ℕ) :
    channelValues (blackImage n m) = List.replicate (3 * (n * m)) 0 := by
  unfold channelValues blackImage
  rw [flatten_replicate_replicate]
  induction n * m with
  | zero => simp
  | succ k ih =>
      rw [List.replicate_succ, List.flatMap_cons, ih,
        show 3 * (k + 1) = 3 + 3 * k by ring, List.replicate_add]
      rfl

/-- np.mean of the black image is 0. -/
lemma brightness_black (n m : ℕ) : brightnessOf (blackImage n m) = 0 := by
  unfold brightnessOf
  rw [channelValues_black, List.sum_replicate]
  simp

/-- The green ratio of the black image is 0 (no pixel passes g > 40). -/
lemma green_ratio_black (n m : ℕ) :
    calculate_green_ratio (.rgb (blackImage n m)) = 0 := by
  simp only [calculate_green_ratio]
  have hmask : (blackImage n m).map (fun row => row.map greenPixel) =
      List.replicate n (List.replicate m false) := by
    unfold blackImage
    rw [List.map_replicate, List.map_replicate,
      show greenPixel (0, 0, 0) = false from by norm_num [greenPixel]]
  rw [hmask, List.map_replicate, List.map_replicate,
    show (List.replicate m false).countP id = 0 from
      List.countP_eq_zero.mpr (fun a ha => by
        rw [List.eq_of_mem_replicate ha]; simp),
    List.sum_replicate, smul_zero]
  rw [Nat.cast_zero, zero_div, round3, pyRound_eq_int 3 0 0 (by norm_num)]
  norm_num

/-- C7 counterexample: the all-black 100 by 100 image is rejected, but with
the no-plant reason (the green_ratio rule fires first), not the darkness
reason the claim names. -/
theorem C7_cex :
    validate_features (some (extract_plant_features (blackImage 100 100))) =
      (false, some msgNoPlant) ∧ msgNoPlant ≠ msgTooDark := by
  constructor
  · have hg : (extract_plant_features (blackImage 100 100)).green_ratio = 0 := by
      simp only [extract_plant_features]
      exact green_ratio_black 100 100
    simp only [validate_features, dictGreen, dictBrightness, dictBrightness0, hg]
    norm_num
  · decide

/-- C7 amended: a uniformly black image at or above the minimum dimensions
has brightness 0 and is rejected, with the no-plant (low green content)
reason: the green rule precedes the darkness rule and already fires. -/
theorem C7_black_rejected (n m : ℕ) (_hn : 100 ≤ n) (_hm : 100 ≤ m) :
    (extract_plant_features (blackImage n m)).brightness = 0 ∧
    validate_features (some (extract_plant_features (blackImage n m))) =
      (false, some msgNoPlant) := by
  constructor
  · simp only [extract_plant_features]
    exact brightness_black n m
  · have hg : (extract_plant_features (blackImage n m)).green_ratio = 0 := by
      simp only [extract_plant_features]
      exact green_ratio_black n m
    simp only [validate_features, dictGreen, dictBrightness, dictBrightness0, hg]
    norm_num

/-- C7 witness: the amended theorem at the minimal 100 by 100 size. -/
theorem C7_black_rejected_witness :
    (extract_plant_features (blackImage 100 100)).brightness = 0 ∧
    validate_features (some (extract_plant_features (blackImage 100 100))) =
      (false, some msgNoPlant) :=
  C7_black_rejected 100 100 (by norm_num) (by norm_num)

/-- C8 counterexample: a faulting feature extraction (empty dictionary) on a
valid decoded image yields a rejection whose reason is the no-plant message
produced by the defaulted green_ratio, not the generic could-not-analyze
reason the claim prescribes; no such generic message exists in the code. -/
theorem C8_cex :
    validate_plant_image (.decoded jpegOk none) = (false, some msgNoPlant) ∧
    msgNoPlant ≠ specGenericReason := by
  constructor
  · have hp : process_image jpegOk =
        .ok { width := 200, height := 200, resized := false } := rfl
    simp only [validate_plant_image, hp]
    norm_num [validate_features, dictGreen]
  · decide

/-- C8 amended: an extraction fault on any successfully processed image
degrades to a rejecting verdict — the empty feature dictionary defaults
green_ratio to 0, so the no-plant reason is returned — and, the embedding
being a total function, nothing propagates to the caller. -/
theorem C8_fault_degrades (d : DecodedImage)
    (hf : d.format.name ∈ ALLOWED_FORMATS)
    (hw : 100 ≤ d.width) (hh : 100 ≤ d.height) :
    validate_plant_image (.decoded d none) = (false, some msgNoPlant) := by
  have hs : ¬ (d.width < MIN_SIZE.1 ∨ d.height < MIN_SIZE.2) := by
    simp only [MIN_SIZE]
    omega
  obtain ⟨out, hp⟩ := process_image_ok d hf hs
  simp only [validate_plant_image, hp]
  norm_num [validate_features, dictGreen]

/-- C8 witness: the amended theorem at a concrete valid 200 by 200 JPEG. -/
theorem C8_fault_degrades_witness :
    validate_plant_image (.decoded jpegOk none) = (false, some msgNoPlant) :=
  C8_fault_degrades jpegOk (by decide) (by decide) (by decide)

/-- The acceptance flag of the feature check is true exactly when the
message is absent. -/
lemma validate_features_flag (o : Option Features) :
    (validate_features o).1 = true ↔ (validate_features o).2 = none := by
  unfold validate_features
  split_ifs <;> simp

/-- C10: validate_plant_image is a total function returning a flag and an
optional message; the flag is true exactly when no message is present, and
every process_image failure (decode failure, unsupported format, too-small
image) maps to the pair (false, wrapped message). -/
theorem C10_total_mapping (input : RawInput) :
    ((validate_plant_image input).1 = true ↔
      (validate_plant_image input).2 = none) ∧
    (∀ e, processRawResult input = .error e →
      validate_plant_image input = (false, some e.message)) := by
  cases input with
  | undecodable m =>
      constructor
      · simp [validate_plant_image]
      · intro e he
        simp only [processRawResult] at he
        injection he with h
        subst h
        rfl
  | decoded d feats =>
      cases hp : process_image d with
      | error e0 =>
          constructor
          · simp [validate_plant_image, hp]
          · intro e he
            simp only [processRawResult, hp, Except.map] at he
            injection he with h
            subst h
            simp [validate_plant_image, hp]
      | ok out =>
          constructor
          · simp only [validate_plant_image, hp]
            exact validate_features_flag feats
          · intro e he
            simp only [processRawResult, hp, Except.map] at he
            exact absurd he (by simp)

/-- C10 witness: the mapping clause applied to an undecodable buffer. -/
theorem C10_total_mapping_witness :
    validate_plant_image (.undecodable "cannot identify image file") =
      (false, some (ProcErr.message (.decodeFailure "cannot identify image file"))) :=
  (C10_total_mapping (.undecodable "cannot identify image file")).2
    (.decodeFailure "cannot identify image file") rfl

/-- roundHalfEven rounds an odd half upward. -/
lemma roundHalfEven_half_odd (n : ℤ) (h : Odd n) :
    roundHalfEven ((n : ℚ) + 1/2) = n + 1 := by
  have hfl : (⌊(n:ℚ) + 1/2⌋ : ℤ) = n := by
    rw [show ((n:ℚ) + 1/2) = (1/2 + (n:ℚ)) by ring, Int.floor_add_int]
    norm_num
  unfold roundHalfEven
  rw [hfl]
  rw [if_neg (by norm_num), if_neg (by norm_num),
    if_neg (Int.not_even_iff_odd.mpr h)]

/-- round1 on a value whose tenfold is an odd half rounds up. -/
lemma round1_half_up (x : ℚ) (n : ℤ) (hodd : Odd n) (h : x * 10 = (n:ℚ) + 1/2) :
    round1 x = ((n : ℚ) + 1) / 10 := by
  rw [round1, pyRound, pow_one, h, roundHalfEven_half_odd n hodd]
  push_cast
  ring

/-- C9 counterexample: on the 8 by 8 image domExample the reported
percentages are 43.8, 18.8, 18.8, 18.8 — each exact share (43.75 and 18.75)
is an odd half at the rounding position, so each rounds up — and their sum
is 100.2, exceeding 100. -/
theorem C9_cex :
    ((get_dominant_colors domExample).map DomColor.percentage).sum = 501/5 ∧
    (100 : ℚ) < 501/5 := by
  refine ⟨?_, by norm_num⟩
  have hs : (sortedColorCounts domExample).take 5 =
      [((0,0,0),28), ((4,0,0),12), ((8,0,0),12), ((12,0,0),12)] := by decide
  have hlen : ((domExample.flatten).length : ℕ) = 64 := by decide
  have r28 : round1 (((28:ℕ):ℚ) / ((64:ℕ):ℚ) * 100) = 219/5 := by
    rw [round1_half_up _ 437 (Int.odd_iff.mpr (by norm_num)) (by push_cast; norm_num)]
    norm_num
  have r12 : round1 (((12:ℕ):ℚ) / ((64:ℕ):ℚ) * 100) = 94/5 := by
    rw [round1_half_up _ 187 (Int.odd_iff.mpr (by norm_num)) (by push_cast; norm_num)]
    norm_num
  unfold get_dominant_colors
  rw [hs, hlen]
  simp only [List.map_cons, List.map_nil, List.sum_cons, List.sum_nil]
  rw [r28, r12]
  norm_num

/-- A list of reported percentages is bounded by the exact total share plus
0.05 per entry (round1 can round up by at most half a tenth). -/
lemma sum_round1_perc_le (l : List (Rgb × ℕ)) (N : ℕ) :
    ((l.map (fun ck => round1 ((ck.2 : ℚ) / (N : ℚ) * 100))).sum) ≤
      (((l.map (fun ck => ck.2)).sum : ℕ) : ℚ) / (N : ℚ) * 100 +
        (l.length : ℚ) * (1/20) := by
  induction l with
  | nil => simp
  | cons a t ih =>
      simp only [List.map_cons, List.sum_cons, List.length_cons]
      have h1 := round1_le ((a.2 : ℚ) / (N : ℚ) * 100)
      have heq : (((a.2 + (t.map (fun ck => ck.2)).sum : ℕ) : ℚ)) / (N : ℚ) * 100 =
          (a.2 : ℚ) / (N : ℚ) * 100 +
            (((t.map (fun ck => ck.2)).sum : ℕ) : ℚ) / (N : ℚ) * 100 := by
        rw [Nat.cast_add, add_div, add_mul]
      have hlen : ((t.length + 1 : ℕ) : ℚ) = (t.length : ℚ) + 1 := by
        push_cast
        ring
      rw [heq, hlen]
      linarith

/-- C9 amended: dominant_colors always has at most 5 entries, its
percentages are nonincreasing (the entries are ordered by descending pixel
count), and the sum of the reported percentages is at most 100.25 — the
exact shares sum to at most 100 and each rounding can add at most 0.05; 100
itself can be exceeded, as C9_cex shows. -/
theorem C9_dominant_colors (rows : List (List Rgb)) :
    (get_dominant_colors rows).length ≤ 5 ∧
    List.Pairwise (fun a b => b.percentage ≤ a.percentage)
      (get_dominant_colors rows) ∧
    ((get_dominant_colors rows).map DomColor.percentage).sum ≤ 401/4 := by
  refine ⟨?_, ?_, ?_⟩
  · simp only [get_dominant_colors, List.length_map, List.length_take]
    omega
  · have hsorted : List.Pairwise byCountDesc (sortedColorCounts rows) :=
      List.sorted_insertionSort byCountDesc (colorCounts rows)
    have htake : List.Pairwise byCountDesc ((sortedColorCounts rows).take 5) :=
      List.Pairwise.sublist (List.take_sublist 5 _) hsorted
    unfold get_dominant_colors
    refine List.Pairwise.map _ ?_ htake
    intro a b hab
    dsimp only
    apply round1_mono
    have hc : (b.2 : ℚ) ≤ (a.2 : ℚ) := by exact_mod_cast hab
    exact mul_le_mul_of_nonneg_right
      (div_le_div_of_nonneg_right hc (Nat.cast_nonneg _)) (by norm_num)
  · have hcount : (((sortedColorCounts rows).take 5).map (fun ck => ck.2)).sum ≤
        (rows.flatten).length := by
      have h1 : ((((sortedColorCounts rows).take 5).map (fun ck => ck.2))).Sublist
          ((sortedColorCounts rows).map (fun ck => ck.2)) :=
        List.Sublist.map _ (List.take_sublist 5 _)
      have h2 := h1.sum_le_sum (fun a _ => Nat.zero_le a)
      have h3 : ((sortedColorCounts rows).map (fun ck => ck.2)).sum =
          ((colorCounts rows).map (fun ck => ck.2)).sum :=
        ((List.perm_insertionSort byCountDesc (colorCounts rows)).map _).sum_eq
      have h4 : ((colorCounts rows).map (fun ck => ck.2)).sum =
          (rows.flatten).length := by
        unfold colorCounts
        rw [List.map_map]
        have h5 : ((List.insertionSort rgbLex (quantizedPixels rows).dedup).map
            ((fun ck => ck.2) ∘
              (fun c => (c, @List.count Rgb instBEqOfDecidableEq c
                (quantizedPixels rows))))).sum =
            (((quantizedPixels rows).dedup).map
              (fun c => @List.count Rgb instBEqOfDecidableEq c
                (quantizedPixels rows))).sum :=
          ((List.perm_insertionSort rgbLex _).map _).sum_eq
        rw [h5]
        calc (((quantizedPixels rows).dedup).map
              (fun c => @List.count Rgb instBEqOfDecidableEq c
                (quantizedPixels rows))).sum
            = (quantizedPixels rows).length :=
              List.sum_map_count_dedup_eq_length _
          _ = (rows.flatten).length := by
              simp only [quantizedPixels, List.length_map]
      omega
    have hlen5 : ((sortedColorCounts rows).take 5).length ≤ 5 := by
      simp [List.length_take]
    have hsum := sum_round1_perc_le ((sortedColorCounts rows).take 5)
      (rows.flatten).length
    have hmap : ((get_dominant_colors rows).map DomColor.percentage) =
        (((sortedColorCounts rows).take 5).map
          (fun ck => round1 ((ck.2 : ℚ) / (((rows.flatten).length : ℕ) : ℚ) * 100))) := by
      unfold get_dominant_colors
      rw [List.map_map]
      rfl
    rw [hmap]
    have hfrac : (((((sortedColorCounts rows).take 5).map
        (fun ck => ck.2)).sum : ℕ) : ℚ) / (((rows.flatten).length : ℕ) : ℚ) * 100
          ≤ 100 := by
      rcases Nat.eq_zero_or_pos (rows.flatten).length with h0 | hpos
      · simp [h0]
      · have hNpos : (0:ℚ) < ((rows.flatten).length : ℚ) := by exact_mod_cast hpos
        have hle : (((((sortedColorCounts rows).take 5).map
            (fun ck => ck.2)).sum : ℕ) : ℚ) ≤ ((rows.flatten).length : ℚ) :=
          Nat.cast_le.mpr hcount
        calc (((((sortedColorCounts rows).take 5).map
              (fun ck => ck.2)).sum : ℕ) : ℚ) / (((rows.flatten).length : ℕ) : ℚ) * 100
            ≤ ((rows.flatten).length : ℚ) / ((rows.flatten).length : ℚ) * 100 :=
              mul_le_mul_of_nonneg_right
                (div_le_div_of_nonneg_right hle (Nat.cast_nonneg _)) (by norm_num)
          _ = 100 := by
              rw [div_self (ne_of_gt hNpos), one_mul]
    have hlenq : (((sortedColorCounts rows).take 5).length : ℚ) ≤ 5 :=
      Nat.cast_le.mpr hlen5 |>.trans_eq (by norm_num)
    linarith [hsum]
